import Mathlib

/-!
Shallow embedding of the RingRTC media-frame encryption core
(`src/rust/src/core/crypto.rs`) and proofs of the specification's claims.

Bytes are modelled as `Nat` (kept below 256 by the operations that matter);
the 8-bit `RatchetCounter` and 64-bit `FrameCounter` are `Nat` with explicit
wrap-around (`% 2^8`, `% 2^64`) wherever the Rust code performs wrapping
arithmetic.  The cryptographic primitives used by the module come from
external crates (`hkdf`, `hmac`, `sha2`, `aes`/`ctr`); they are abstracted as
a structure of executable functions over which every theorem is universally
quantified.  AES-256-CTR is a stream cipher: it XORs the data with a
keystream that is a function of the key, the IV and the byte position, which
is exactly how `apply_keystream` is modelled.  The `HashMap` of receiver
states is modelled as a total function with `[]` as the default value, the
standard abstract-map view (the code only ever observes the map through
lookups of single keys).
-/

namespace RingRTC

abbrev Byte := Nat

abbrev Secret := List Byte
abbrev AesKey := List Byte
abbrev HmacKey := List Byte
abbrev Iv := List Byte
abbrev MacBytes := List Byte
abbrev RatchetCounter := Nat
abbrev SenderId := Nat
abbrev FrameCounter := Nat

/-- Abstract interface to the external cryptographic primitives used by
`crypto.rs`: HKDF-SHA-256 expansion to 32 bytes (empty salt, the secret as
input keying material, an info string), HMAC-SHA-256 (full 32-byte output),
and the AES-256-CTR keystream byte at a given position for a key and IV. -/
structure Crypto where
  hkdfExpand32 : Secret → List Byte → Secret
  hmacSha256 : HmacKey → List Byte → List Byte
  keystreamByte : AesKey → Iv → Nat → Byte

/-- The constant `RATCHET_INFO_STRING = b"RingRTC Ratchet"`. -/
def RATCHET_INFO_STRING : List Byte := "RingRTC Ratchet".toList.map Char.toNat

/-- The info string `b"RingRTC AES Key"` used by `derive_aes_key`. -/
def AES_KEY_INFO_STRING : List Byte := "RingRTC AES Key".toList.map Char.toNat

/-- The info string `b"RingRTC HMAC Key"` used by `derive_hmac_key`. -/
def HMAC_KEY_INFO_STRING : List Byte := "RingRTC HMAC Key".toList.map Char.toNat

def MAX_RECEIVER_STATES_TO_RETAIN : Nat := 5

def MAX_OOO_FRAMES : Nat := 30 * 10

def MAX_OOO_RATCHETS : Nat := 5

def MAC_SIZE_BYTES : Nat := 16

/-- Wrapping subtraction of 8-bit values: `a.wrapping_sub(b)` on `u8`. -/
def sub8 (a b : Nat) : Nat := (a % 256 + 256 - b % 256) % 256

/-- Wrapping subtraction of 64-bit values: `a.wrapping_sub(b)` on `u64`. -/
def sub64 (a b : Nat) : Nat := (a % 2 ^ 64 + 2 ^ 64 - b % 2 ^ 64) % 2 ^ 64

/-- The struct `SenderState` of `crypto.rs`. -/
structure SenderState where
  current_aes_key : AesKey
  current_hmac_key : HmacKey
  current_secret : Secret
  ratchet_counter : RatchetCounter
deriving DecidableEq

/-- `derive_aes_key`: HKDF-SHA-256 expansion of the current secret with the
AES info string. -/
def derive_aes_key (c : Crypto) (secret : Secret) : AesKey :=
  c.hkdfExpand32 secret AES_KEY_INFO_STRING

/-- `derive_hmac_key`: HKDF-SHA-256 expansion of the current secret with the
HMAC info string. -/
def derive_hmac_key (c : Crypto) (secret : Secret) : HmacKey :=
  c.hkdfExpand32 secret HMAC_KEY_INFO_STRING

/-- `SenderState::new`: store the secret and ratchet counter and derive both
keys from the secret. -/
def SenderState.new (c : Crypto) (ratchet_counter : RatchetCounter) (secret : Secret) :
    SenderState :=
  { current_aes_key := derive_aes_key c secret
    current_hmac_key := derive_hmac_key c secret
    current_secret := secret
    ratchet_counter := ratchet_counter }

/-- `SenderState::mut_advance_ratchet` (functional version): replace the
secret with its HKDF ratchet, re-derive both keys, and increment the ratchet
counter with 8-bit wrap-around. -/
def SenderState.mut_advance_ratchet (c : Crypto) (st : SenderState) : SenderState :=
  let secret := c.hkdfExpand32 st.current_secret RATCHET_INFO_STRING
  { current_aes_key := derive_aes_key c secret
    current_hmac_key := derive_hmac_key c secret
    current_secret := secret
    ratchet_counter := (st.ratchet_counter + 1) % 256 }

/-- The struct `ReceiverState` of `crypto.rs`. -/
structure ReceiverState where
  sender_state : SenderState
  ratchet_frame : FrameCounter
  old_secret : Secret
  old_ratchet_counter : RatchetCounter
deriving DecidableEq

/-- `ReceiverState::new`. -/
def ReceiverState.new (c : Crypto) (ratchet_counter : RatchetCounter) (secret : Secret) :
    ReceiverState :=
  { sender_state := SenderState.new c ratchet_counter secret
    ratchet_frame := 0
    old_secret := secret
    old_ratchet_counter := ratchet_counter }

/-- Iterated HKDF ratchet: `ratchetSteps c s n` applies the forward ratchet
`n` times to `s`. -/
def ratchetSteps (c : Crypto) (secret : Secret) : Nat → Secret
  | 0 => secret
  | n + 1 => ratchetSteps c (c.hkdfExpand32 secret RATCHET_INFO_STRING) n

/-- The loop `while cur != ratchet_counter_goal` of
`ReceiverState::try_advance_ratchet`: ratchet the secret forward and
increment `cur` with 8-bit wrap-around until the goal is reached.  The 8-bit
values `cur` and `goal` are compared modulo 256. -/
def advanceLoop (c : Crypto) (goal cur : Nat) (secret : Secret) : Secret :=
  if cur % 256 = goal % 256 then secret
  else advanceLoop c goal ((cur + 1) % 256) (c.hkdfExpand32 secret RATCHET_INFO_STRING)
termination_by sub8 goal cur
decreasing_by
  simp only [sub8] at *
  omega

/-- `ReceiverState::try_advance_ratchet`: pick the starting chain position
(the current one for frames newer than the high-water mark, the retained old
one otherwise), walk the ratchet forward to the goal counter, and decide
which old position the returned state retains. -/
def ReceiverState.try_advance_ratchet (c : Crypto) (st : ReceiverState)
    (ratchet_counter_goal : RatchetCounter) (frame_counter : FrameCounter) : ReceiverState :=
  let start :=
    if frame_counter > st.ratchet_frame then
      (st.sender_state.ratchet_counter, st.sender_state.current_secret)
    else
      (st.old_ratchet_counter, st.old_secret)
  let secret := advanceLoop c ratchet_counter_goal start.1 start.2
  let sender_state := SenderState.new c ratchet_counter_goal secret
  if sub64 frame_counter st.ratchet_frame > MAX_OOO_FRAMES then
    { sender_state := sender_state
      ratchet_frame := frame_counter
      old_secret := st.sender_state.current_secret
      old_ratchet_counter := st.sender_state.ratchet_counter }
  else
    { sender_state := sender_state
      ratchet_frame := frame_counter
      old_secret := st.old_secret
      old_ratchet_counter := st.old_ratchet_counter }

/-- The loop of `ReceiverState::limit_ooo`: while the 8-bit wrapping distance
from `old_ratchet_counter` to the current ratchet counter exceeds
`MAX_OOO_RATCHETS`, ratchet the old secret forward and increment
`old_ratchet_counter` with 8-bit wrap-around. -/
def limitLoop (c : Crypto) (rc : Nat) (oldSecret : Secret) (oldRc : Nat) : Secret × Nat :=
  if sub8 rc oldRc > MAX_OOO_RATCHETS then
    limitLoop c rc (c.hkdfExpand32 oldSecret RATCHET_INFO_STRING) ((oldRc + 1) % 256)
  else
    (oldSecret, oldRc)
termination_by sub8 rc oldRc
decreasing_by
  simp only [sub8, MAX_OOO_RATCHETS] at *
  omega

/-- `ReceiverState::limit_ooo` (functional version): advance the old chain
position until it is within `MAX_OOO_RATCHETS` of the current one. -/
def ReceiverState.limit_ooo (c : Crypto) (st : ReceiverState) : ReceiverState :=
  let r := limitLoop c st.sender_state.ratchet_counter st.old_secret st.old_ratchet_counter
  { st with old_secret := r.1, old_ratchet_counter := r.2 }

/-- Big-endian byte encoding of a `u64` (`u64::to_be_bytes`). -/
def u64_to_be_bytes (n : Nat) : List Byte :=
  [n / 2 ^ 56 % 256, n / 2 ^ 48 % 256, n / 2 ^ 40 % 256, n / 2 ^ 32 % 256,
   n / 2 ^ 24 % 256, n / 2 ^ 16 % 256, n / 2 ^ 8 % 256, n % 256]

/-- Big-endian byte encoding of a `u32` (`u32::to_be_bytes`). -/
def u32_to_be_bytes (n : Nat) : List Byte :=
  [n / 2 ^ 24 % 256, n / 2 ^ 16 % 256, n / 2 ^ 8 % 256, n % 256]

/-- `convert_frame_counter_to_iv`: a zeroed 16-byte IV whose first 8 bytes
are the big-endian encoding of the frame counter. -/
def convert_frame_counter_to_iv (frame_counter : FrameCounter) : Iv :=
  u64_to_be_bytes frame_counter ++ List.replicate 8 0

/-- `len_as_u32_be_bytes`: the slice length cast to `u32` (truncating) in
big-endian bytes. -/
def len_as_u32_be_bytes (slice : List Byte) : List Byte :=
  u32_to_be_bytes (slice.length % 2 ^ 32)

/-- The byte sequence fed to HMAC-SHA-256 by both `Context::encrypt` and
`check_mac`: IV, ciphertext length as big-endian u32, ciphertext, trailing
big-endian u32 zero. -/
def macInput (iv : Iv) (data : List Byte) : List Byte :=
  iv ++ len_as_u32_be_bytes data ++ data ++ u32_to_be_bytes 0

/-- `check_mac`: recompute the truncated HMAC-SHA-256 tag with the state's
current HMAC key and compare it (constant time in the Rust code, plain
equality semantically) with the wire MAC. -/
def check_mac (c : Crypto) (state : ReceiverState) (frame_counter : FrameCounter)
    (data : List Byte) (mac : MacBytes) : Bool :=
  let iv := convert_frame_counter_to_iv frame_counter
  (c.hmacSha256 state.sender_state.current_hmac_key (macInput iv data)).take MAC_SIZE_BYTES
    == mac

/-- The AES-256-CTR keystream application starting at byte position `i`:
each data byte is XORed with the corresponding keystream byte. -/
def applyKeystreamFrom (c : Crypto) (key : AesKey) (iv : Iv) (i : Nat) :
    List Byte → List Byte
  | [] => []
  | b :: rest => (b ^^^ c.keystreamByte key iv i) :: applyKeystreamFrom c key iv (i + 1) rest

/-- `cipher.apply_keystream(data)` for `Ctr64BE<Aes256>` initialized with a
key and IV: XOR the buffer with the keystream determined by key and IV. -/
def applyKeystream (c : Crypto) (key : AesKey) (iv : Iv) (data : List Byte) : List Byte :=
  applyKeystreamFrom c key iv 0 data

/-- `decrypt_internal`: apply AES-256-CTR with the state's current AES key
and the IV derived from the frame counter. -/
def decrypt_internal (c : Crypto) (state : ReceiverState) (frame_counter : FrameCounter)
    (data : List Byte) : List Byte :=
  applyKeystream c state.sender_state.current_aes_key
    (convert_frame_counter_to_iv frame_counter) data

/-- The error enum of `crypto.rs`: its only variant. -/
inductive Error where
  | NoMatchingReceiverState
deriving DecidableEq

/-- The struct `Context` of `crypto.rs`.  The `HashMap` from sender id to
receiver-state vector is modelled as a total function defaulting to `[]`
(which is how `get_mut_ref_state_vec_by_id` presents it: a lookup that
materializes an empty vector for unknown keys). -/
structure Context where
  sender_state : SenderState
  next_frame_counter : FrameCounter
  remote_states_by_id : SenderId → List ReceiverState

/-- `Context::new`: a fresh sender state at ratchet counter 0 and frame
counter 1, with no remote states. -/
def Context.new (c : Crypto) (initial_send_secret : Secret) : Context :=
  { sender_state := SenderState.new c 0 initial_send_secret
    next_frame_counter := 1
    remote_states_by_id := fun _ => [] }

/-- Point update of the remote-states map. -/
def Context.setStates (ctx : Context) (sender_id : SenderId)
    (states : List ReceiverState) : Context :=
  { ctx with
    remote_states_by_id := fun j => if j = sender_id then states else ctx.remote_states_by_id j }

/-- The values returned by `Context::encrypt` (which always returns `Ok` —
the error enum has no variant that `encrypt` produces): the in-place
ciphertext, the filled MAC buffer, and the `(ratchet_counter, frame_counter)`
pair. -/
structure EncryptOut where
  data : List Byte
  mac : MacBytes
  ratchet_counter : RatchetCounter
  frame_counter : FrameCounter
deriving DecidableEq

/-- `Context::encrypt`: take the next frame counter (incrementing it with
64-bit wrap-around), encrypt the buffer in place with AES-256-CTR under the
IV built from the frame counter, and fill the MAC with the truncated
HMAC-SHA-256 over the authenticated layout. -/
def Context.encrypt (c : Crypto) (ctx : Context) (data : List Byte) : EncryptOut × Context :=
  let frame_counter := ctx.next_frame_counter
  let ctx2 := { ctx with next_frame_counter := (frame_counter + 1) % 2 ^ 64 }
  let iv := convert_frame_counter_to_iv frame_counter
  let ct := applyKeystream c ctx.sender_state.current_aes_key iv data
  let mac := (c.hmacSha256 ctx.sender_state.current_hmac_key (macInput iv ct)).take
    MAC_SIZE_BYTES
  ({ data := ct
     mac := mac
     ratchet_counter := ctx.sender_state.ratchet_counter
     frame_counter := frame_counter }, ctx2)

/-- Phase A of `Context::decrypt`: the first stored state whose current
ratchet counter equals the wire ratchet counter and whose MAC verifies. -/
def phaseA (c : Crypto) (ratchet_counter : RatchetCounter) (frame_counter : FrameCounter)
    (data : List Byte) (mac : MacBytes) : List ReceiverState → Option ReceiverState
  | [] => none
  | st :: rest =>
    if st.sender_state.ratchet_counter == ratchet_counter
        && check_mac c st frame_counter data mac then
      some st
    else
      phaseA c ratchet_counter frame_counter data mac rest

/-- Phase B of `Context::decrypt`: for each stored state in order, build the
tentative state advanced to the wire ratchet counter; on the first MAC match,
apply `limit_ooo` and commit it in place.  Returns the committed state and
the updated state vector. -/
def phaseB (c : Crypto) (ratchet_counter : RatchetCounter) (frame_counter : FrameCounter)
    (data : List Byte) (mac : MacBytes) :
    List ReceiverState → Option (ReceiverState × List ReceiverState)
  | [] => none
  | st :: rest =>
    let tryState := st.try_advance_ratchet c ratchet_counter frame_counter
    if check_mac c tryState frame_counter data mac then
      let committed := tryState.limit_ooo c
      some (committed, committed :: rest)
    else
      match phaseB c ratchet_counter frame_counter data mac rest with
      | some (u, rest2) => some (u, st :: rest2)
      | none => none

/-- `Context::decrypt`: try the fast path (phase A), then the catch-up path
(phase B); on failure return `NoMatchingReceiverState` with the buffer and
the context untouched.  The returned triple is (result, buffer contents
after the call, context after the call). -/
def Context.decrypt (c : Crypto) (ctx : Context) (sender_id : SenderId)
    (ratchet_counter : RatchetCounter) (frame_counter : FrameCounter)
    (data : List Byte) (mac : MacBytes) : Except Error Unit × List Byte × Context :=
  let states := ctx.remote_states_by_id sender_id
  match phaseA c ratchet_counter frame_counter data mac states with
  | some st => (Except.ok (), decrypt_internal c st frame_counter data, ctx)
  | none =>
    match phaseB c ratchet_counter frame_counter data mac states with
    | some (st, states2) =>
      (Except.ok (), decrypt_internal c st frame_counter data,
        ctx.setStates sender_id states2)
    | none => (Except.error Error.NoMatchingReceiverState, data, ctx)

/-- `Context::send_state`. -/
def Context.send_state (ctx : Context) : RatchetCounter × Secret :=
  (ctx.sender_state.ratchet_counter, ctx.sender_state.current_secret)

/-- `Context::advance_send_ratchet`. -/
def Context.advance_send_ratchet (c : Crypto) (ctx : Context) :
    (RatchetCounter × Secret) × Context :=
  let ctx2 := { ctx with sender_state := ctx.sender_state.mut_advance_ratchet c }
  (ctx2.send_state, ctx2)

/-- `Context::reset_send_ratchet`: a fresh sender state at ratchet counter 0
on the new secret; the frame counter is left alone. -/
def Context.reset_send_ratchet (c : Crypto) (ctx : Context) (secret : Secret) : Context :=
  { ctx with sender_state := SenderState.new c 0 secret }

/-- `Context::add_receive_secret`: if the per-sender vector is at capacity,
drop the tail; insert a fresh receiver state at the head. -/
def Context.add_receive_secret (c : Crypto) (ctx : Context) (sender_id : SenderId)
    (ratchet_counter : RatchetCounter) (secret : Secret) : Context :=
  let states := ctx.remote_states_by_id sender_id
  let states2 :=
    if states.length = MAX_RECEIVER_STATES_TO_RETAIN then states.dropLast else states
  ctx.setStates sender_id (ReceiverState.new c ratchet_counter secret :: states2)

/-- A concrete instantiation of the abstract primitives, used only to
evaluate the theorems on explicit inputs: the HKDF expansion returns the
input secret, the HMAC returns its key, and the keystream is all zeros. -/
def testCrypto : Crypto where
  hkdfExpand32 := fun s _ => s
  hmacSha256 := fun k _ => k
  keystreamByte := fun _ _ _ => 0

/-- The MAC as the specification words it (for comparison with the code's
`encrypt` and `check_mac`): the leftmost 16 bytes of HMAC-SHA-256, keyed with
the given HMAC key, over the concatenation of the IV (frame counter
big-endian in bytes 0..7, zeros in bytes 8..15), the ciphertext length as a
big-endian 32-bit unsigned integer, the ciphertext bytes, and a big-endian
32-bit zero. -/
def macSpec (c : Crypto) (key : HmacKey) (frame_counter : FrameCounter)
    (ct : List Byte) : MacBytes :=
  (c.hmacSha256 key ((u64_to_be_bytes frame_counter ++ List.replicate 8 0)
    ++ u32_to_be_bytes (ct.length % 2 ^ 32) ++ ct ++ u32_to_be_bytes 0)).take MAC_SIZE_BYTES

/-- Apply a sequence of `add_receive_secret` calls to a context. -/
def addCalls (c : Crypto) (ctx : Context) :
    List (SenderId × RatchetCounter × Secret) → Context
  | [] => ctx
  | (sender_id, rc, s) :: rest => addCalls c (ctx.add_receive_secret c sender_id rc s) rest

/-- A concrete receiver state used to exercise the catch-up path on explicit
inputs: its retained old chain position carries a different secret than its
current one, and its high-water frame is 10. -/
def oooState : ReceiverState :=
  { sender_state := SenderState.new testCrypto 0 (List.replicate 32 2)
    ratchet_frame := 10
    old_secret := List.replicate 32 1
    old_ratchet_counter := 0 }

/-- The state committed by the catch-up path when `oooState` handles an old
frame (counter 5) at ratchet counter 0: the chain restarts from the old
secret, and the significant-jump rule retains the previous current secret. -/
def oooCommitted : ReceiverState :=
  { sender_state := SenderState.new testCrypto 0 (List.replicate 32 1)
    ratchet_frame := 5
    old_secret := List.replicate 32 2
    old_ratchet_counter := 0 }

/-- A context holding `oooState` for sender 5. -/
def oooContext : Context :=
  (Context.new testCrypto (List.replicate 32 1)).setStates 5 [oooState]

/-! ### Helper lemmas -/

theorem applyKeystreamFrom_applyKeystreamFrom (c : Crypto) (key : AesKey) (iv : Iv)
    (i : Nat) (data : List Byte) :
    applyKeystreamFrom c key iv i (applyKeystreamFrom c key iv i data) = data := by
  induction data generalizing i with
  | nil => rfl
  | cons b rest ih =>
    simp only [applyKeystreamFrom, ih, Nat.xor_cancel_right]

/-- Applying the CTR keystream twice with the same key and IV restores the
buffer: XOR with the same keystream is an involution. -/
theorem applyKeystream_applyKeystream (c : Crypto) (key : AesKey) (iv : Iv)
    (data : List Byte) :
    applyKeystream c key iv (applyKeystream c key iv data) = data :=
  applyKeystreamFrom_applyKeystreamFrom c key iv 0 data

theorem sub8_lt (a b : Nat) : sub8 a b < 256 := by
  simp only [sub8]
  omega

/-- The advancement loop performs exactly `sub8 goal cur` HKDF steps on the
secret: the 8-bit wrapping distance from the starting counter to the goal. -/
theorem advanceLoop_eq_ratchetSteps (c : Crypto) (goal cur : Nat) (secret : Secret) :
    advanceLoop c goal cur secret = ratchetSteps c secret (sub8 goal cur) := by
  generalize hd : sub8 goal cur = d
  induction d generalizing cur secret with
  | zero =>
    have hc : cur % 256 = goal % 256 := by simp only [sub8] at hd; omega
    rw [advanceLoop, if_pos hc]
    rfl
  | succ n ih =>
    have hc : ¬ cur % 256 = goal % 256 := by simp only [sub8] at hd ⊢; omega
    rw [advanceLoop, if_neg hc]
    rw [ih ((cur + 1) % 256) _ (by simp only [sub8] at hd ⊢; omega)]
    rfl

/-- After the `limit_ooo` loop, the 8-bit wrapping distance from the old
ratchet counter to the current one is at most `MAX_OOO_RATCHETS`. -/
theorem limitLoop_bound (c : Crypto) (rc : Nat) (s : Secret) (o : Nat) :
    sub8 rc (limitLoop c rc s o).2 ≤ MAX_OOO_RATCHETS := by
  generalize hd : sub8 rc o = d
  induction d using Nat.strong_induction_on generalizing s o with
  | _ d ih =>
    rw [limitLoop]
    by_cases h : sub8 rc o > MAX_OOO_RATCHETS
    · rw [if_pos h]
      exact ih (sub8 rc ((o + 1) % 256))
        (by simp only [sub8, MAX_OOO_RATCHETS] at h hd ⊢; omega) _ _ rfl
    · rw [if_neg h]
      exact Nat.not_lt.mp h

theorem limit_ooo_bound (c : Crypto) (st : ReceiverState) :
    sub8 (st.limit_ooo c).sender_state.ratchet_counter (st.limit_ooo c).old_ratchet_counter
      ≤ MAX_OOO_RATCHETS :=
  limitLoop_bound c st.sender_state.ratchet_counter st.old_secret st.old_ratchet_counter

theorem limit_ooo_sender_state (c : Crypto) (st : ReceiverState) :
    (st.limit_ooo c).sender_state = st.sender_state := rfl

theorem limit_ooo_ratchet_frame (c : Crypto) (st : ReceiverState) :
    (st.limit_ooo c).ratchet_frame = st.ratchet_frame := rfl

theorem try_advance_ratchet_frame (c : Crypto) (st : ReceiverState)
    (goal : RatchetCounter) (fc : FrameCounter) :
    (st.try_advance_ratchet c goal fc).ratchet_frame = fc := by
  simp only [ReceiverState.try_advance_ratchet]
  split <;> rfl

theorem phaseA_eq_none (c : Crypto) (rc : RatchetCounter) (fc : FrameCounter)
    (data : List Byte) (mac : MacBytes) (l : List ReceiverState)
    (h : ∀ st ∈ l, ¬(st.sender_state.ratchet_counter = rc
      ∧ check_mac c st fc data mac = true)) :
    phaseA c rc fc data mac l = none := by
  induction l with
  | nil => rfl
  | cons st rest ih =>
    have h1 := h st (List.mem_cons_self st rest)
    rw [phaseA, if_neg]
    · exact ih fun u hu => h u (List.mem_cons_of_mem st hu)
    · simp only [Bool.and_eq_true, beq_iff_eq]
      exact fun hc => h1 ⟨hc.1, hc.2⟩

theorem phaseB_eq_none (c : Crypto) (rc : RatchetCounter) (fc : FrameCounter)
    (data : List Byte) (mac : MacBytes) (l : List ReceiverState)
    (h : ∀ st ∈ l, check_mac c (st.try_advance_ratchet c rc fc) fc data mac = false) :
    phaseB c rc fc data mac l = none := by
  induction l with
  | nil => rfl
  | cons st rest ih =>
    have h1 := h st (List.mem_cons_self st rest)
    rw [phaseB]
    simp only [h1, Bool.false_eq_true, if_false,
      ih fun u hu => h u (List.mem_cons_of_mem st hu)]

/-- Any state committed by phase B is the `limit_ooo` image of a tentatively
advanced state, so it satisfies the out-of-order ratchet bound and carries
the committing frame counter as its `ratchet_frame`. -/
theorem phaseB_committed (c : Crypto) (rc : RatchetCounter) (fc : FrameCounter)
    (data : List Byte) (mac : MacBytes) (l : List ReceiverState)
    (u : ReceiverState) (l2 : List ReceiverState)
    (h : phaseB c rc fc data mac l = some (u, l2)) :
    sub8 u.sender_state.ratchet_counter u.old_ratchet_counter ≤ MAX_OOO_RATCHETS
      ∧ u.ratchet_frame = fc := by
  induction l generalizing l2 with
  | nil => exact absurd h (by simp [phaseB])
  | cons st rest ih =>
    rw [phaseB] at h
    by_cases hm : check_mac c (st.try_advance_ratchet c rc fc) fc data mac = true
    · rw [if_pos hm] at h
      cases h
      exact ⟨limit_ooo_bound c _, by
        rw [limit_ooo_ratchet_frame, try_advance_ratchet_frame]⟩
    · rw [if_neg hm] at h
      cases hrec : phaseB c rc fc data mac rest with
      | none => rw [hrec] at h; simp at h
      | some p =>
        obtain ⟨v, rest2⟩ := p
        rw [hrec] at h
        simp only [Option.some.injEq, Prod.mk.injEq] at h
        obtain ⟨h1, -⟩ := h
        subst h1
        exact ih rest2 hrec

theorem advanceLoop_self (c : Crypto) (goal cur : Nat) (secret : Secret)
    (h : cur % 256 = goal % 256) : advanceLoop c goal cur secret = secret := by
  rw [advanceLoop, if_pos h]

theorem limitLoop_noop (c : Crypto) (rc : Nat) (s : Secret) (o : Nat)
    (h : ¬ sub8 rc o > MAX_OOO_RATCHETS) : limitLoop c rc s o = (s, o) := by
  rw [limitLoop, if_neg h]

/-- If phase A returns a state, that state is stored, has the matching
ratchet counter, and authenticates the MAC. -/
theorem phaseA_some_spec (c : Crypto) (rc : RatchetCounter) (fc : FrameCounter)
    (data : List Byte) (mac : MacBytes) (l : List ReceiverState) (st : ReceiverState)
    (h : phaseA c rc fc data mac l = some st) :
    st ∈ l ∧ st.sender_state.ratchet_counter = rc ∧ check_mac c st fc data mac = true := by
  induction l with
  | nil => simp [phaseA] at h
  | cons a rest ih =>
    rw [phaseA] at h
    by_cases hc : (a.sender_state.ratchet_counter == rc && check_mac c a fc data mac) = true
    · rw [if_pos hc] at h
      cases h
      simp only [Bool.and_eq_true, beq_iff_eq] at hc
      exact ⟨List.mem_cons_self _ _, hc.1, hc.2⟩
    · rw [if_neg hc] at h
      obtain ⟨h1, h2, h3⟩ := ih h
      exact ⟨List.mem_cons_of_mem a h1, h2, h3⟩

/-- A single `add_receive_secret` call keeps every per-sender vector within
the retention capacity. -/
theorem add_receive_secret_length (c : Crypto) (ctx : Context) (sender_id : SenderId)
    (rc : RatchetCounter) (s : Secret) (j : SenderId)
    (h : (ctx.remote_states_by_id j).length ≤ MAX_RECEIVER_STATES_TO_RETAIN) :
    ((ctx.add_receive_secret c sender_id rc s).remote_states_by_id j).length
      ≤ MAX_RECEIVER_STATES_TO_RETAIN := by
  by_cases hj : j = sender_id
  · subst hj
    simp only [Context.add_receive_secret, Context.setStates, eq_self_iff_true, if_true,
      List.length_cons]
    split
    · rename_i hlen
      simp only [List.length_dropLast]
      simp only [MAX_RECEIVER_STATES_TO_RETAIN] at h hlen ⊢
      omega
    · rename_i hlen
      simp only [MAX_RECEIVER_STATES_TO_RETAIN] at h hlen ⊢
      omega
  · simp only [Context.add_receive_secret, Context.setStates, if_neg hj]
    exact h

theorem addCalls_length_le (c : Crypto) (calls : List (SenderId × RatchetCounter × Secret))
    (ctx : Context)
    (h : ∀ j, (ctx.remote_states_by_id j).length ≤ MAX_RECEIVER_STATES_TO_RETAIN)
    (j : SenderId) :
    ((addCalls c ctx calls).remote_states_by_id j).length
      ≤ MAX_RECEIVER_STATES_TO_RETAIN := by
  induction calls generalizing ctx with
  | nil => exact h j
  | cons call rest ih =>
    obtain ⟨sender_id, rc, s⟩ := call
    exact ih (ctx.add_receive_secret c sender_id rc s)
      (fun u => add_receive_secret_length c ctx sender_id rc s u (h u))

/-- Iterating the sender ratchet from a fresh state at counter `r` yields a
fresh state at counter `(r + n) mod 256` on the `n`-fold ratcheted secret. -/
theorem iterate_mut_advance (c : Crypto) (r : Nat) (s : Secret) (n : Nat) (hr : r < 256) :
    (fun st => SenderState.mut_advance_ratchet c st)^[n] (SenderState.new c r s)
      = SenderState.new c ((r + n) % 256) (ratchetSteps c s n) := by
  induction n generalizing r s with
  | zero =>
    simp only [Function.iterate_zero, id_eq, ratchetSteps]
    rw [Nat.add_zero, Nat.mod_eq_of_lt hr]
  | succ n ih =>
    rw [Function.iterate_succ_apply]
    have h1 : SenderState.mut_advance_ratchet c (SenderState.new c r s)
        = SenderState.new c ((r + 1) % 256) (c.hkdfExpand32 s RATCHET_INFO_STRING) := rfl
    rw [h1, ih ((r + 1) % 256) _ (Nat.mod_lt _ (by omega))]
    have h2 : ((r + 1) % 256 + n) % 256 = (r + (n + 1)) % 256 := by omega
    rw [h2]
    rfl

/-- Encrypt-then-decrypt round trip: if the head receiver state for a sender
carries the same ratchet counter and keys as the context's own sender state,
decrypting the frame just produced by `encrypt` succeeds via the fast path
and restores the plaintext, leaving the context unchanged. -/
theorem encrypt_then_decrypt (c : Crypto) (ctx : Context) (sender_id : SenderId)
    (st : ReceiverState) (rest : List ReceiverState) (p : List Byte)
    (hmap : ctx.remote_states_by_id sender_id = st :: rest)
    (hrc : st.sender_state.ratchet_counter = ctx.sender_state.ratchet_counter)
    (haes : st.sender_state.current_aes_key = ctx.sender_state.current_aes_key)
    (hhmac : st.sender_state.current_hmac_key = ctx.sender_state.current_hmac_key) :
    ((ctx.encrypt c p).2).decrypt c sender_id (ctx.encrypt c p).1.ratchet_counter
        (ctx.encrypt c p).1.frame_counter (ctx.encrypt c p).1.data (ctx.encrypt c p).1.mac
      = (Except.ok (), p, (ctx.encrypt c p).2) := by
  have e1 : (ctx.encrypt c p).1.ratchet_counter = ctx.sender_state.ratchet_counter := rfl
  have e2 : (ctx.encrypt c p).1.frame_counter = ctx.next_frame_counter := rfl
  have e3 : (ctx.encrypt c p).1.data
      = applyKeystream c ctx.sender_state.current_aes_key
          (convert_frame_counter_to_iv ctx.next_frame_counter) p := rfl
  have e4 : (ctx.encrypt c p).1.mac
      = (c.hmacSha256 ctx.sender_state.current_hmac_key
          (macInput (convert_frame_counter_to_iv ctx.next_frame_counter)
            (ctx.encrypt c p).1.data)).take MAC_SIZE_BYTES := rfl
  have e5 : ((ctx.encrypt c p).2).remote_states_by_id = ctx.remote_states_by_id := rfl
  have hcm : check_mac c st (ctx.encrypt c p).1.frame_counter (ctx.encrypt c p).1.data
      (ctx.encrypt c p).1.mac = true := by
    simp only [check_mac, hhmac, e2]
    conv_lhs => rw [e4]
    exact beq_self_eq_true _
  have hA : phaseA c (ctx.encrypt c p).1.ratchet_counter (ctx.encrypt c p).1.frame_counter
      (ctx.encrypt c p).1.data (ctx.encrypt c p).1.mac (st :: rest) = some st := by
    rw [phaseA, if_pos]
    simp [Bool.and_eq_true, beq_iff_eq, e1, hrc, hcm]
  simp only [Context.decrypt, e5, hmap]
  rw [hA]
  simp only [decrypt_internal, haes, e2]
  conv_lhs => rw [e3, applyKeystream_applyKeystream]

/-! ### Claims -/

/-- Claim C4: the MAC produced by `encrypt` equals the leftmost 16 bytes of
HMAC-SHA-256, keyed with the current HMAC key, over the concatenation of the
IV (frame counter big-endian in bytes 0..7, zeros in bytes 8..15), the
ciphertext length as a big-endian 32-bit unsigned integer, the ciphertext
bytes, and a big-endian 32-bit zero; and `check_mac` in the decrypt path
recomputes exactly this value and compares it with the wire MAC. -/
theorem claim_C4_mac_layout (c : Crypto) :
    (∀ (ctx : Context) (p : List Byte),
      (ctx.encrypt c p).1.mac
        = macSpec c ctx.sender_state.current_hmac_key (ctx.encrypt c p).1.frame_counter
            (ctx.encrypt c p).1.data)
    ∧ (∀ (st : ReceiverState) (fc : FrameCounter) (data : List Byte) (mac : MacBytes),
      check_mac c st fc data mac
        = (macSpec c st.sender_state.current_hmac_key fc data == mac)) := by
  constructor <;> intros <;>
    simp [Context.encrypt, check_mac, macSpec, macInput, convert_frame_counter_to_iv,
      len_as_u32_be_bytes, List.append_assoc]

/-- Claim C7: every per-sender receiver-state vector stays within the
retention capacity of 5 under any sequence of `add_receive_secret` calls
starting from a fresh context, and each call inserts the freshly constructed
state at the head, dropping the tail first when the vector already holds 5
states. -/
theorem claim_C7_retention_bound (c : Crypto) (s0 : Secret)
    (calls : List (SenderId × RatchetCounter × Secret)) (sender_id : SenderId) :
    ((addCalls c (Context.new c s0) calls).remote_states_by_id sender_id).length
        ≤ MAX_RECEIVER_STATES_TO_RETAIN
    ∧ (∀ (ctx : Context) (rc : RatchetCounter) (s : Secret),
        (ctx.add_receive_secret c sender_id rc s).remote_states_by_id sender_id
          = ReceiverState.new c rc s ::
              (if (ctx.remote_states_by_id sender_id).length = MAX_RECEIVER_STATES_TO_RETAIN
                then (ctx.remote_states_by_id sender_id).dropLast
                else ctx.remote_states_by_id sender_id)) := by
  constructor
  · exact addCalls_length_le c calls (Context.new c s0) (fun _ => by simp [Context.new])
      sender_id
  · intro ctx rc s
    simp [Context.add_receive_secret, Context.setStates]

/-- Claim C8: the advancement loop of `try_advance_ratchet` terminates after
exactly the 8-bit wrapping distance from the selected starting counter to
the goal counter — at most 255 HKDF-ratchet steps — and the resulting sender
state is built at the goal counter from the correspondingly ratcheted
secret. -/
theorem claim_C8_loop_termination (c : Crypto) (st : ReceiverState)
    (ratchet_counter_goal : RatchetCounter) (frame_counter : FrameCounter) :
    (st.try_advance_ratchet c ratchet_counter_goal frame_counter).sender_state
      = SenderState.new c ratchet_counter_goal
          (ratchetSteps c
            (if frame_counter > st.ratchet_frame then st.sender_state.current_secret
              else st.old_secret)
            (sub8 ratchet_counter_goal
              (if frame_counter > st.ratchet_frame then st.sender_state.ratchet_counter
                else st.old_ratchet_counter)))
    ∧ sub8 ratchet_counter_goal
        (if frame_counter > st.ratchet_frame then st.sender_state.ratchet_counter
          else st.old_ratchet_counter) ≤ 255 := by
  constructor
  · simp only [ReceiverState.try_advance_ratchet, advanceLoop_eq_ratchetSteps]
    split <;> split <;> rfl
  · have := sub8_lt ratchet_counter_goal
      (if frame_counter > st.ratchet_frame then st.sender_state.ratchet_counter
        else st.old_ratchet_counter)
    omega

/-- Claim C9: `try_advance_ratchet` sets `ratchet_frame` to the given frame
counter unconditionally (for every frame counter, including one smaller than
the state's previous `ratchet_frame` — the field is not a monotonic
maximum), and `limit_ooo`, applied before a phase-B commit, preserves it, so
every committed state carries the committing frame counter. -/
theorem claim_C9_ratchet_frame_overwritten (c : Crypto) (st : ReceiverState)
    (ratchet_counter_goal : RatchetCounter) (frame_counter : FrameCounter) :
    (st.try_advance_ratchet c ratchet_counter_goal frame_counter).ratchet_frame
        = frame_counter
    ∧ ReceiverState.ratchet_frame
        ((st.try_advance_ratchet c ratchet_counter_goal frame_counter).limit_ooo c)
        = frame_counter :=
  ⟨try_advance_ratchet_frame c st ratchet_counter_goal frame_counter, by
    rw [limit_ooo_ratchet_frame, try_advance_ratchet_frame]⟩

/-- Claim C10: when decrypt succeeds in the fast path (phase A finds a
stored state whose current ratchet counter matches the wire value and whose
MAC verifies), the context is returned completely unchanged — no receiver
state is replaced or advanced, the sender state and frame counter are
untouched — and the buffer is the AES-CTR decryption of the ciphertext under
that state's key. -/
theorem claim_C10_fast_path_pure (c : Crypto) (ctx : Context) (sender_id : SenderId)
    (rc : RatchetCounter) (fc : FrameCounter) (data : List Byte) (mac : MacBytes)
    (st : ReceiverState)
    (hA : phaseA c rc fc data mac (ctx.remote_states_by_id sender_id) = some st) :
    ctx.decrypt c sender_id rc fc data mac
        = (Except.ok (), decrypt_internal c st fc data, ctx)
      ∧ st ∈ ctx.remote_states_by_id sender_id
      ∧ st.sender_state.ratchet_counter = rc
      ∧ check_mac c st fc data mac = true := by
  have hspec := phaseA_some_spec c rc fc data mac _ st hA
  refine ⟨?_, hspec.1, hspec.2.1, hspec.2.2⟩
  simp only [Context.decrypt]
  rw [hA]

/-- Witness for C10: a concrete context holding one receiver state that
matches the wire metadata of the decrypted frame. -/
theorem claim_C10_fast_path_pure_witness :
    phaseA testCrypto 0 1 [2, 3] (List.replicate 16 1)
        (((Context.new testCrypto (List.replicate 32 1)).add_receive_secret testCrypto 7 0
          (List.replicate 32 1)).remote_states_by_id 7)
      = some (ReceiverState.new testCrypto 0 (List.replicate 32 1))
    ∧ ((Context.new testCrypto (List.replicate 32 1)).add_receive_secret testCrypto 7 0
        (List.replicate 32 1)).decrypt testCrypto 7 0 1 [2, 3] (List.replicate 16 1)
      = (Except.ok (),
          decrypt_internal testCrypto (ReceiverState.new testCrypto 0 (List.replicate 32 1))
            1 [2, 3],
          ((Context.new testCrypto (List.replicate 32 1)).add_receive_secret testCrypto 7 0
            (List.replicate 32 1))) :=
  ⟨by decide, (claim_C10_fast_path_pure testCrypto _ 7 0 1 [2, 3] (List.replicate 16 1)
    (ReceiverState.new testCrypto 0 (List.replicate 32 1)) (by decide)).1⟩

/-- Claim C2: when no stored state (phase A) and no tentatively advanced
state (phase B) authenticates the MAC, decrypt returns
`NoMatchingReceiverState`, the buffer still holds the original ciphertext,
and the context is unchanged. -/
theorem claim_C2_no_match_error (c : Crypto) (ctx : Context) (sender_id : SenderId)
    (rc : RatchetCounter) (fc : FrameCounter) (data : List Byte) (mac : MacBytes)
    (hA : ∀ st ∈ ctx.remote_states_by_id sender_id,
      ¬(st.sender_state.ratchet_counter = rc ∧ check_mac c st fc data mac = true))
    (hB : ∀ st ∈ ctx.remote_states_by_id sender_id,
      check_mac c (st.try_advance_ratchet c rc fc) fc data mac = false) :
    ctx.decrypt c sender_id rc fc data mac
      = (Except.error Error.NoMatchingReceiverState, data, ctx) := by
  simp only [Context.decrypt]
  rw [phaseA_eq_none c rc fc data mac _ hA, phaseB_eq_none c rc fc data mac _ hB]

/-- Witness for C2: a fresh context with no receiver states rejects any
frame, returning the untouched buffer and context. -/
theorem claim_C2_no_match_error_witness :
    (∀ st ∈ (Context.new testCrypto (List.replicate 32 1)).remote_states_by_id 9,
      ¬(st.sender_state.ratchet_counter = 4
        ∧ check_mac testCrypto st 2 [5] (List.replicate 16 0) = true))
    ∧ (∀ st ∈ (Context.new testCrypto (List.replicate 32 1)).remote_states_by_id 9,
      check_mac testCrypto (st.try_advance_ratchet testCrypto 4 2) 2 [5]
        (List.replicate 16 0) = false)
    ∧ (Context.new testCrypto (List.replicate 32 1)).decrypt testCrypto 9 4 2 [5]
        (List.replicate 16 0)
      = (Except.error Error.NoMatchingReceiverState, [5],
          Context.new testCrypto (List.replicate 32 1)) :=
  ⟨by intro st hst; simp [Context.new] at hst,
   by intro st hst; simp [Context.new] at hst,
   claim_C2_no_match_error testCrypto _ 9 4 2 [5] (List.replicate 16 0)
     (by intro st hst; simp [Context.new] at hst)
     (by intro st hst; simp [Context.new] at hst)⟩

/-- Claim C6: whenever decrypt succeeds through the catch-up phase, the
committed receiver state satisfies the out-of-order ratchet bound: the 8-bit
wrapping difference between its current ratchet counter and its old ratchet
counter is at most `MAX_OOO_RATCHETS` (= 5). -/
theorem claim_C6_ooo_ratchet_bound (c : Crypto) (ctx : Context) (sender_id : SenderId)
    (rc : RatchetCounter) (fc : FrameCounter) (data : List Byte) (mac : MacBytes)
    (u : ReceiverState) (l2 : List ReceiverState)
    (hA : phaseA c rc fc data mac (ctx.remote_states_by_id sender_id) = none)
    (hB : phaseB c rc fc data mac (ctx.remote_states_by_id sender_id) = some (u, l2)) :
    ctx.decrypt c sender_id rc fc data mac
        = (Except.ok (), decrypt_internal c u fc data, ctx.setStates sender_id l2)
      ∧ sub8 u.sender_state.ratchet_counter u.old_ratchet_counter ≤ MAX_OOO_RATCHETS := by
  refine ⟨?_, (phaseB_committed c rc fc data mac _ u l2 hB).1⟩
  simp only [Context.decrypt]
  rw [hA, hB]

theorem oooState_advances :
    oooState.try_advance_ratchet testCrypto 0 5 = oooCommitted := by
  simp only [ReceiverState.try_advance_ratchet, oooState, oooCommitted, SenderState.new]
  norm_num [sub64, MAX_OOO_FRAMES]
  rw [advanceLoop_self testCrypto 0 0 _ rfl]
  exact ⟨rfl, rfl, rfl⟩

theorem oooState_phaseB :
    phaseB testCrypto 0 5 [] (List.replicate 16 1) [oooState]
      = some (oooCommitted, [oooCommitted]) := by
  rw [phaseB, oooState_advances]
  have hmac : check_mac testCrypto oooCommitted 5 [] (List.replicate 16 1) = true := by
    decide
  rw [if_pos hmac]
  have hlim : oooCommitted.limit_ooo testCrypto = oooCommitted := by
    simp only [ReceiverState.limit_ooo, oooCommitted]
    rw [limitLoop_noop testCrypto _ _ _ (by decide)]
  rw [hlim]

/-- Witness for C6: a concrete decrypt that succeeds through the catch-up
phase commits a state whose counter gap is within the bound. -/
theorem claim_C6_ooo_ratchet_bound_witness :
    phaseA testCrypto 0 5 [] (List.replicate 16 1) (oooContext.remote_states_by_id 5) = none
    ∧ phaseB testCrypto 0 5 [] (List.replicate 16 1) (oooContext.remote_states_by_id 5)
        = some (oooCommitted, [oooCommitted])
    ∧ oooContext.decrypt testCrypto 5 0 5 [] (List.replicate 16 1)
        = (Except.ok (), decrypt_internal testCrypto oooCommitted 5 [],
            oooContext.setStates 5 [oooCommitted])
    ∧ sub8 oooCommitted.sender_state.ratchet_counter oooCommitted.old_ratchet_counter
        ≤ MAX_OOO_RATCHETS := by
  have hA : phaseA testCrypto 0 5 [] (List.replicate 16 1)
      (oooContext.remote_states_by_id 5) = none := by decide
  have hB : phaseB testCrypto 0 5 [] (List.replicate 16 1)
      (oooContext.remote_states_by_id 5) = some (oooCommitted, [oooCommitted]) :=
    oooState_phaseB
  have h := claim_C6_ooo_ratchet_bound testCrypto oooContext 5 0 5 [] (List.replicate 16 1)
    oooCommitted [oooCommitted] hA hB
  exact ⟨hA, hB, h.1, h.2⟩

/-- Claim C1: for every 32-byte secret, sender id, and byte sequence, on a
context constructed from the secret after `add_receive_secret(sender_id, 0,
secret)`, encrypting a plaintext and then decrypting the resulting
ciphertext with the returned ratchet and frame counters and MAC succeeds and
restores the plaintext. -/
theorem claim_C1_round_trip (c : Crypto) (s : Secret) (hs : s.length = 32)
    (sender_id : SenderId) (p : List Byte) :
    ((((Context.new c s).add_receive_secret c sender_id 0 s).encrypt c p).2).decrypt c
        sender_id
        (((Context.new c s).add_receive_secret c sender_id 0 s).encrypt c p).1.ratchet_counter
        (((Context.new c s).add_receive_secret c sender_id 0 s).encrypt c p).1.frame_counter
        (((Context.new c s).add_receive_secret c sender_id 0 s).encrypt c p).1.data
        (((Context.new c s).add_receive_secret c sender_id 0 s).encrypt c p).1.mac
      = (Except.ok (), p,
          (((Context.new c s).add_receive_secret c sender_id 0 s).encrypt c p).2) := by
  apply encrypt_then_decrypt c _ sender_id (ReceiverState.new c 0 s) [] p
  · simp [Context.add_receive_secret, Context.setStates, Context.new,
      MAX_RECEIVER_STATES_TO_RETAIN]
  · rfl
  · rfl
  · rfl

/-- Witness for C1: the round trip evaluated on a concrete secret, sender id,
and plaintext. -/
theorem claim_C1_round_trip_witness :
    (List.replicate 32 (1 : Nat)).length = 32
    ∧ ((((Context.new testCrypto (List.replicate 32 1)).add_receive_secret testCrypto 3 0
          (List.replicate 32 1)).encrypt testCrypto [9, 8]).2).decrypt testCrypto 3
        (((Context.new testCrypto (List.replicate 32 1)).add_receive_secret testCrypto 3 0
          (List.replicate 32 1)).encrypt testCrypto [9, 8]).1.ratchet_counter
        (((Context.new testCrypto (List.replicate 32 1)).add_receive_secret testCrypto 3 0
          (List.replicate 32 1)).encrypt testCrypto [9, 8]).1.frame_counter
        (((Context.new testCrypto (List.replicate 32 1)).add_receive_secret testCrypto 3 0
          (List.replicate 32 1)).encrypt testCrypto [9, 8]).1.data
        (((Context.new testCrypto (List.replicate 32 1)).add_receive_secret testCrypto 3 0
          (List.replicate 32 1)).encrypt testCrypto [9, 8]).1.mac
      = (Except.ok (), [9, 8],
          (((Context.new testCrypto (List.replicate 32 1)).add_receive_secret testCrypto 3 0
            (List.replicate 32 1)).encrypt testCrypto [9, 8]).2) :=
  ⟨by decide, claim_C1_round_trip testCrypto (List.replicate 32 1) (by decide) 3 [9, 8]⟩

/-- Claim C3: a receiver state constructed at counter 0 from a 32-byte
secret and advanced via `try_advance_ratchet(k, 0)` carries a sender state
equal (secret, AES key, HMAC key, and ratchet counter alike) to a sender
state constructed at counter 0 from the same secret and advanced `k` times
via `mut_advance_ratchet`, for every `k ≤ 255`. -/
theorem claim_C3_ratchet_equivalence (c : Crypto) (s : Secret) (hs : s.length = 32)
    (k : Nat) (hk : k ≤ 255) :
    ((ReceiverState.new c 0 s).try_advance_ratchet c k 0).sender_state
      = (fun st => SenderState.mut_advance_ratchet c st)^[k] (SenderState.new c 0 s) := by
  rw [iterate_mut_advance c 0 s k (by omega)]
  have h256 : (0 + k) % 256 = k := by omega
  rw [h256]
  have h8 : sub8 k 0 = k := by simp only [sub8]; omega
  simp only [ReceiverState.try_advance_ratchet, ReceiverState.new,
    advanceLoop_eq_ratchetSteps]
  norm_num [sub64, h8]

/-- Witness for C3: the equivalence evaluated at a concrete secret and five
ratchet steps. -/
theorem claim_C3_ratchet_equivalence_witness :
    (List.replicate 32 (3 : Nat)).length = 32
    ∧ 5 ≤ 255
    ∧ ((ReceiverState.new testCrypto 0 (List.replicate 32 3)).try_advance_ratchet testCrypto
          5 0).sender_state
      = (fun st => SenderState.mut_advance_ratchet testCrypto st)^[5]
          (SenderState.new testCrypto 0 (List.replicate 32 3)) :=
  ⟨by decide, by decide,
    claim_C3_ratchet_equivalence testCrypto (List.replicate 32 3) (by decide) 5 (by decide)⟩

/-- Claim C5: `encrypt` returns the context's current frame counter and
advances it by one, so successive encrypt calls return strictly increasing
frame counters (starting at 1 on a fresh context) as long as the 64-bit
counter does not overflow; `reset_send_ratchet` leaves `next_frame_counter`
unchanged, and neither `advance_send_ratchet`, `add_receive_secret`, nor
`decrypt` (on any outcome) changes it. -/
theorem claim_C5_frame_counter_monotonic (c : Crypto) :
    (∀ s : Secret, (Context.new c s).next_frame_counter = 1)
    ∧ (∀ (ctx : Context) (p : List Byte),
        (ctx.encrypt c p).1.frame_counter = ctx.next_frame_counter
          ∧ ((ctx.encrypt c p).2).next_frame_counter
            = (ctx.next_frame_counter + 1) % 2 ^ 64)
    ∧ (∀ (ctx : Context) (p q : List Byte), ctx.next_frame_counter + 1 < 2 ^ 64 →
        (ctx.encrypt c p).1.frame_counter
          < (((ctx.encrypt c p).2).encrypt c q).1.frame_counter)
    ∧ (∀ (ctx : Context) (s : Secret),
        (ctx.reset_send_ratchet c s).next_frame_counter = ctx.next_frame_counter)
    ∧ (∀ ctx : Context,
        ((ctx.advance_send_ratchet c).2).next_frame_counter = ctx.next_frame_counter)
    ∧ (∀ (ctx : Context) (sender_id : SenderId) (rc : RatchetCounter) (s : Secret),
        (ctx.add_receive_secret c sender_id rc s).next_frame_counter
          = ctx.next_frame_counter)
    ∧ (∀ (ctx : Context) (sender_id : SenderId) (rc : RatchetCounter) (fc : FrameCounter)
        (data : List Byte) (mac : MacBytes),
        ((ctx.decrypt c sender_id rc fc data mac).2.2).next_frame_counter
          = ctx.next_frame_counter) := by
  refine ⟨fun s => rfl, fun ctx p => ⟨rfl, rfl⟩, ?_, fun ctx s => rfl, fun ctx => rfl,
    fun ctx sender_id rc s => rfl, ?_⟩
  · intro ctx p q h
    have h1 : (((ctx.encrypt c p).2).encrypt c q).1.frame_counter
        = (ctx.next_frame_counter + 1) % 2 ^ 64 := rfl
    have h2 : (ctx.encrypt c p).1.frame_counter = ctx.next_frame_counter := rfl
    rw [h1, h2, Nat.mod_eq_of_lt h]
    exact Nat.lt_succ_self _
  · intro ctx sender_id rc fc data mac
    simp only [Context.decrypt]
    cases hA : phaseA c rc fc data mac (ctx.remote_states_by_id sender_id) with
    | some st => rfl
    | none =>
      cases hB : phaseB c rc fc data mac (ctx.remote_states_by_id sender_id) with
      | none => rfl
      | some pr =>
        obtain ⟨u, l2⟩ := pr
        rfl

/-- Witness for C5: the monotonicity conjunct evaluated on a fresh concrete
context, whose frame counter satisfies the no-overflow hypothesis. -/
theorem claim_C5_frame_counter_monotonic_witness :
    (Context.new testCrypto (List.replicate 32 1)).next_frame_counter + 1 < 2 ^ 64
    ∧ (Context.new testCrypto (List.replicate 32 1)).next_frame_counter = 1
    ∧ ((Context.new testCrypto (List.replicate 32 1)).encrypt testCrypto []).1.frame_counter
      < ((((Context.new testCrypto (List.replicate 32 1)).encrypt testCrypto
          []).2).encrypt testCrypto []).1.frame_counter :=
  ⟨by decide,
   (claim_C5_frame_counter_monotonic testCrypto).1 (List.replicate 32 1),
   (claim_C5_frame_counter_monotonic testCrypto).2.2.1
     (Context.new testCrypto (List.replicate 32 1)) [] [] (by decide)⟩

end RingRTC
